import Mathlib

/-!
Verification of the doctl domain command handlers (src/commands/domains.go)
against the repository specification.

The handlers are shallowly embedded as pure functions.  Each handler takes a
`CmdConfig` (positional args, flag accessors, and the domains service) and
returns the Go `error`/display outcome together with the ordered trace of
remote-service calls it performed.  The service itself is modelled as an
oracle: a record of functions returning `Except GoError`, so a theorem can
quantify over every possible remote behaviour.
-/

/-- Go `error` values occurring in the command layer: `NewMissingArgsErr`
(modelled from the spec's MissingArguments error kind, the helper lives in the
doctl package outside src/), `errors.New`/`fmt.Errorf` messages, and opaque
transport/API errors returned by the remote service. -/
inductive GoError where
  | missingArgs (ns : String)
  | msg (s : String)
  | api (code : Nat) (body : String)
deriving DecidableEq, Repr

/-- godo.Domain as used by the command layer: name and IP address. -/
structure Domain where
  Name : String
  IPAddress : String
deriving DecidableEq, Repr

/-- godo.DomainRecord: id, type, name, data, priority, port, weight.
`Type'` stands for the Go field `Type` (a reserved word in Lean). -/
structure DomainRecord where
  ID : Int
  Type' : String
  Name : String
  Data : String
  Priority : Int
  Port : Int
  Weight : Int
deriving DecidableEq, Repr

/-- godo.DomainCreateRequest, built by RunDomainCreate. -/
structure DomainCreateRequest where
  Name : String
  IPAddress : String
deriving DecidableEq, Repr

/-- godo.DomainRecordEditRequest, built by RunRecordCreate and
RunRecordUpdate.  `Type'` stands for the Go field `Type`. -/
structure DomainRecordEditRequest where
  Type' : String
  Name : String
  Data : String
  Priority : Int
  Port : Int
  Weight : Int
deriving DecidableEq, Repr

/-- One remote-service invocation, recorded in the order the handler makes
them. -/
inductive ServiceCall where
  | create (req : DomainCreateRequest)
  | list
  | get (name : String)
  | delete (name : String)
  | records (name : String)
  | createRecord (name : String) (req : DomainRecordEditRequest)
  | editRecord (name : String) (id : Int) (req : DomainRecordEditRequest)
  | deleteRecord (name : String) (id : Int)
deriving DecidableEq, Repr

/-- The item a handler hands to the Displayer on success. -/
inductive Displayed where
  | domains (l : List Domain)
  | records (l : List DomainRecord)
deriving DecidableEq, Repr

/-- Modelled from the spec: the do.DomainsService interface (spec section 4.1;
the do package is not under src/).  Each operation either fails with a Go
error or returns its result.  A value of this type is the oracle describing
the remote side's behaviour. -/
structure DomainsService where
  create : DomainCreateRequest → Except GoError Domain
  list : Except GoError (List Domain)
  get : String → Except GoError Domain
  delete : String → Except GoError Unit
  records : String → Except GoError (List DomainRecord)
  createRecord : String → DomainRecordEditRequest → Except GoError DomainRecord
  editRecord : String → Int → DomainRecordEditRequest → Except GoError DomainRecord
  deleteRecord : String → Int → Except GoError Unit

/-- The flag accessors `c.Doit.GetString`/`c.Doit.GetInt` (namespace, key). -/
structure DoitConfig where
  GetString : String → String → Except GoError String
  GetInt : String → String → Except GoError Int

/-- The CmdConfig a handler receives: namespace, positional args, flag
accessors and the domains service returned by `c.Domains()`. -/
structure CmdConfig where
  NS : String
  Args : List String
  Doit : DoitConfig
  Domains : DomainsService

/-- A handler's outcome: the Go error or the displayed item (`none` for
handlers that display nothing), paired with the trace of remote calls. -/
abbrev HandlerResult := Except GoError (Option Displayed) × List ServiceCall

/-- Modelled from the spec: doctl.ArgRecordType ("--record-type", spec
section 6; the constant lives in the doctl package outside src/). -/
def ArgRecordType : String := "record-type"

/-- Modelled from the spec: doctl.ArgRecordName. -/
def ArgRecordName : String := "record-name"

/-- Modelled from the spec: doctl.ArgRecordData. -/
def ArgRecordData : String := "record-data"

/-- Modelled from the spec: doctl.ArgRecordPriority. -/
def ArgRecordPriority : String := "record-priority"

/-- Modelled from the spec: doctl.ArgRecordPort. -/
def ArgRecordPort : String := "record-port"

/-- Modelled from the spec: doctl.ArgRecordWeight. -/
def ArgRecordWeight : String := "record-weight"

/-- Modelled from the spec: doctl.ArgRecordID ("--record-id"). -/
def ArgRecordID : String := "record-id"

/-- Decimal digit run to a number (helper for `strconvAtoi`). -/
def digitsToNat (l : List Char) : Nat :=
  l.foldl (fun a c => 10 * a + (c.toNat - 48)) 0

/-- Model of Go `strconv.Atoi`: an optional sign followed by at least one
ASCII digit parses to the signed value; everything else is an error
(`none`).  Go's int range check is not modelled; no claim involves ids near
2^63. -/
def strconvAtoi (s : String) : Option Int :=
  let parse : List Char → Option Int := fun l =>
    if l ≠ [] ∧ l.all Char.isDigit then some (Int.ofNat (digitsToNat l)) else none
  match s.toList with
  | '+' :: rest => parse rest
  | '-' :: rest => (parse rest).map Int.neg
  | l => parse l

/-- Model of `fmt %q` on strings whose characters need no escaping: wrap in
double quotes. -/
def goQuote (s : String) : String := "\"" ++ s ++ "\""

instance {ε α : Type} [DecidableEq ε] [DecidableEq α] : DecidableEq (Except ε α) :=
  fun a b =>
    match a, b with
    | .error e, .error e' =>
      if h : e = e' then .isTrue (by rw [h]) else .isFalse (by simp [h])
    | .ok x, .ok y =>
      if h : x = y then .isTrue (by rw [h]) else .isFalse (by simp [h])
    | .error _, .ok _ => .isFalse (by simp)
    | .ok _, .error _ => .isFalse (by simp)

/-- RunDomainCreate (src/commands/domains.go): requires exactly one arg,
reads the "ip-address" flag, builds a DomainCreateRequest and calls
`Create`; displays the created domain. -/
def RunDomainCreate (c : CmdConfig) : HandlerResult :=
  match c.Args with
  | [domainName] =>
    match c.Doit.GetString c.NS "ip-address" with
    | .error err => (.error err, [])
    | .ok ipAddress =>
      let req : DomainCreateRequest := ⟨domainName, ipAddress⟩
      match c.Domains.create req with
      | .error err => (.error err, [.create req])
      | .ok d => (.ok (some (.domains [d])), [.create req])
  | _ => (.error (.missingArgs c.NS), [])

/-- RunDomainList: calls `List` and displays the returned domains. -/
def RunDomainList (c : CmdConfig) : HandlerResult :=
  match c.Domains.list with
  | .error err => (.error err, [.list])
  | .ok domains => (.ok (some (.domains domains)), [.list])

/-- RunDomainGet: requires exactly one arg, rejects an empty name with
`errors.New "invalid domain name"`, then calls `Get` and displays. -/
def RunDomainGet (c : CmdConfig) : HandlerResult :=
  match c.Args with
  | [id] =>
    if id.length < 1 then (.error (.msg "invalid domain name"), [])
    else
      match c.Domains.get id with
      | .error err => (.error err, [.get id])
      | .ok d => (.ok (some (.domains [d])), [.get id])
  | _ => (.error (.missingArgs c.NS), [])

/-- RunDomainDelete: requires exactly one arg, rejects an empty name, then
calls `Delete`; displays nothing. -/
def RunDomainDelete (c : CmdConfig) : HandlerResult :=
  match c.Args with
  | [name] =>
    if name.length < 1 then (.error (.msg "invalid domain name"), [])
    else
      match c.Domains.delete name with
      | .error err => (.error err, [.delete name])
      | .ok _ => (.ok none, [.delete name])
  | _ => (.error (.missingArgs c.NS), [])

/-- RunRecordList: requires exactly one arg, rejects an empty name with
`errors.New "domain name is missing"`, then calls `Records` and displays
the list. -/
def RunRecordList (c : CmdConfig) : HandlerResult :=
  match c.Args with
  | [name] =>
    if name.length < 1 then (.error (.msg "domain name is missing"), [])
    else
      match c.Domains.records name with
      | .error err => (.error err, [.records name])
      | .ok list => (.ok (some (.records list)), [.records name])
  | _ => (.error (.missingArgs c.NS), [])

/-- RunRecordCreate: requires exactly one arg, reads the six record flags in
source order, rejects an empty record type with `errors.New "record request
is missing type"`, then calls `CreateRecord` and displays the new record. -/
def RunRecordCreate (c : CmdConfig) : HandlerResult :=
  match c.Args with
  | [name] =>
    match c.Doit.GetString c.NS ArgRecordType with
    | .error err => (.error err, [])
    | .ok rType =>
    match c.Doit.GetString c.NS ArgRecordName with
    | .error err => (.error err, [])
    | .ok rName =>
    match c.Doit.GetString c.NS ArgRecordData with
    | .error err => (.error err, [])
    | .ok rData =>
    match c.Doit.GetInt c.NS ArgRecordPriority with
    | .error err => (.error err, [])
    | .ok rPriority =>
    match c.Doit.GetInt c.NS ArgRecordPort with
    | .error err => (.error err, [])
    | .ok rPort =>
    match c.Doit.GetInt c.NS ArgRecordWeight with
    | .error err => (.error err, [])
    | .ok rWeight =>
      let drcr : DomainRecordEditRequest :=
        ⟨rType, rName, rData, rPriority, rPort, rWeight⟩
      if drcr.Type'.length = 0 then
        (.error (.msg "record request is missing type"), [])
      else
        match c.Domains.createRecord name drcr with
        | .error err => (.error err, [.createRecord name drcr])
        | .ok r => (.ok (some (.records [r])), [.createRecord name drcr])
  | _ => (.error (.missingArgs c.NS), [])

/-- The loop body of RunRecordDelete over the id strings: parse each id with
`strconv.Atoi` (a parse failure yields `fmt.Errorf "invalid record id %q"`),
call `DeleteRecord`, and stop at the first error. -/
def recordDeleteLoop (ds : DomainsService) (domainName : String) :
    List String → Except GoError Unit × List ServiceCall
  | [] => (.ok (), [])
  | i :: rest =>
    match strconvAtoi i with
    | none => (.error (.msg ("invalid record id " ++ goQuote i)), [])
    | some id =>
      match ds.deleteRecord domainName id with
      | .error err => (.error err, [.deleteRecord domainName id])
      | .ok _ =>
        let r := recordDeleteLoop ds domainName rest
        (r.1, .deleteRecord domainName id :: r.2)

/-- RunRecordDelete: requires at least two args (domain plus one or more
ids), then runs the delete loop; displays nothing on success. -/
def RunRecordDelete (c : CmdConfig) : HandlerResult :=
  if c.Args.length < 2 then (.error (.missingArgs c.NS), [])
  else
    match c.Args with
    | domainName :: ids =>
      if ids.length < 1 then (.error (.missingArgs c.NS), [])
      else
        let r := recordDeleteLoop c.Domains domainName ids
        match r.1 with
        | .error err => (.error err, r.2)
        | .ok _ => (.ok none, r.2)
    | [] => (.error (.missingArgs c.NS), [])

/-- RunRecordUpdate: requires exactly one arg, reads the record id and the
six record flags in source order (no emptiness check on the type), then
calls `EditRecord` and displays the updated record. -/
def RunRecordUpdate (c : CmdConfig) : HandlerResult :=
  match c.Args with
  | [domainName] =>
    match c.Doit.GetInt c.NS ArgRecordID with
    | .error err => (.error err, [])
    | .ok recordID =>
    match c.Doit.GetString c.NS ArgRecordType with
    | .error err => (.error err, [])
    | .ok rType =>
    match c.Doit.GetString c.NS ArgRecordName with
    | .error err => (.error err, [])
    | .ok rName =>
    match c.Doit.GetString c.NS ArgRecordData with
    | .error err => (.error err, [])
    | .ok rData =>
    match c.Doit.GetInt c.NS ArgRecordPriority with
    | .error err => (.error err, [])
    | .ok rPriority =>
    match c.Doit.GetInt c.NS ArgRecordPort with
    | .error err => (.error err, [])
    | .ok rPort =>
    match c.Doit.GetInt c.NS ArgRecordWeight with
    | .error err => (.error err, [])
    | .ok rWeight =>
      let drcr : DomainRecordEditRequest :=
        ⟨rType, rName, rData, rPriority, rPort, rWeight⟩
      match c.Domains.editRecord domainName recordID drcr with
      | .error err => (.error err, [.editRecord domainName recordID drcr])
      | .ok r => (.ok (some (.records [r])), [.editRecord domainName recordID drcr])
  | _ => (.error (.missingArgs c.NS), [])

/-- A remote side on which every operation succeeds; records get id 7 on
creation.  Used as a concrete oracle in witnesses. -/
def svcOk : DomainsService :=
  ⟨fun req => .ok ⟨req.Name, req.IPAddress⟩,
   .ok [],
   fun nm => .ok ⟨nm, "127.0.0.1"⟩,
   fun _ => .ok (),
   fun _ => .ok [],
   fun _ r => .ok ⟨7, r.Type', r.Name, r.Data, r.Priority, r.Port, r.Weight⟩,
   fun _ i r => .ok ⟨i, r.Type', r.Name, r.Data, r.Priority, r.Port, r.Weight⟩,
   fun _ _ => .ok ()⟩

/-- Like `svcOk` except deleting record id 2 fails with an API error. -/
def svcFailAt2 : DomainsService :=
  ⟨fun req => .ok ⟨req.Name, req.IPAddress⟩,
   .ok [],
   fun nm => .ok ⟨nm, "127.0.0.1"⟩,
   fun _ => .ok (),
   fun _ => .ok [],
   fun _ r => .ok ⟨7, r.Type', r.Name, r.Data, r.Priority, r.Port, r.Weight⟩,
   fun _ i r => .ok ⟨i, r.Type', r.Name, r.Data, r.Priority, r.Port, r.Weight⟩,
   fun _ k => if k = 2 then .error (.api 500 "boom") else .ok ()⟩

/-- A remote side on which every operation fails with the given error. -/
def svcFail (e : GoError) : DomainsService :=
  ⟨fun _ => .error e, .error e, fun _ => .error e, fun _ => .error e,
   fun _ => .error e, fun _ _ => .error e, fun _ _ _ => .error e,
   fun _ _ => .error e⟩

/-- Flag accessors that always succeed: every string flag is "v", every int
flag is 0. -/
def doitOk : DoitConfig := ⟨fun _ _ => .ok "v", fun _ _ => .ok 0⟩

/-- Flag accessors that always succeed with every string flag empty. -/
def doitEmptyStrings : DoitConfig := ⟨fun _ _ => .ok "", fun _ _ => .ok 0⟩

/-- Modelled from the spec: the state of a stateful mock service (spec
sections 4.3 and 8; the DomainsService mock is generated outside src/): the
records stored so far, keyed by domain name, and the next fresh record id. -/
structure MockState where
  nextID : Int
  stored : List (String × DomainRecord)
deriving DecidableEq, Repr

/-- Modelled from the spec: mock CreateRecord stores a record carrying the
request's type, name, data, priority, port and weight under a fresh id and
returns it. -/
def mockCreateRecord (st : MockState) (domainName : String)
    (req : DomainRecordEditRequest) : DomainRecord × MockState :=
  let r : DomainRecord :=
    ⟨st.nextID, req.Type', req.Name, req.Data, req.Priority, req.Port, req.Weight⟩
  (r, ⟨st.nextID + 1, (domainName, r) :: st.stored⟩)

/-- Modelled from the spec: mock record lookup by domain name and record id. -/
def mockGetRecord (st : MockState) (domainName : String) (id : Int) :
    Option DomainRecord :=
  (st.stored.find? (fun p => p.1 == domainName && p.2.ID == id)).map Prod.snd

/-- Modelled from the spec: a DomainsService backed by `MockState`; only
CreateRecord is configured, every other operation reports it is not
configured (the mock returns canned responses for expected calls only). -/
def mockService (st : MockState) : DomainsService :=
  ⟨fun _ => .error (.msg "not configured"),
   .error (.msg "not configured"),
   fun _ => .error (.msg "not configured"),
   fun _ => .error (.msg "not configured"),
   fun _ => .error (.msg "not configured"),
   fun dn req => .ok (mockCreateRecord st dn req).1,
   fun _ _ _ => .error (.msg "not configured"),
   fun _ _ => .error (.msg "not configured")⟩

/-- The delete loop on ids that all parse and all delete successfully: it
issues one DeleteRecord call per id, in order, and returns no error. -/
theorem recordDeleteLoop_all_ok (ds : DomainsService) (d : String)
    (ids : List String) (ints : List Int)
    (hp : ids.map strconvAtoi = ints.map some)
    (hok : ∀ n ∈ ints, ds.deleteRecord d n = Except.ok ()) :
    recordDeleteLoop ds d ids = (Except.ok (), ints.map (ServiceCall.deleteRecord d)) := by
  induction ids generalizing ints with
  | nil =>
    have h : ints = [] := by
      cases ints with
      | nil => rfl
      | cons a t => simp at hp
    subst h; rfl
  | cons i rest ih =>
    cases ints with
    | nil => simp at hp
    | cons n ints' =>
      simp only [List.map_cons, List.cons.injEq] at hp
      obtain ⟨h1, h2⟩ := hp
      have hd : ds.deleteRecord d n = Except.ok () := hok n (List.mem_cons_self _ _)
      have hok' : ∀ m ∈ ints', ds.deleteRecord d m = Except.ok () :=
        fun m hm => hok m (List.mem_cons_of_mem _ hm)
      simp [recordDeleteLoop, h1, hd, ih ints' h2 hok']

/-- The delete loop when a prefix of ids parses and deletes successfully and
the next id's DeleteRecord call fails: it returns that error, the trace is
the prefix's calls followed by the failing call, and no later id is
attempted. -/
theorem recordDeleteLoop_fail (ds : DomainsService) (d : String)
    (pre : List String) (preInts : List Int)
    (i : String) (n : Int) (post : List String) (e : GoError)
    (hp : pre.map strconvAtoi = preInts.map some)
    (hok : ∀ m ∈ preInts, ds.deleteRecord d m = Except.ok ())
    (hi : strconvAtoi i = some n)
    (hf : ds.deleteRecord d n = Except.error e) :
    recordDeleteLoop ds d (pre ++ i :: post) =
      (Except.error e, (preInts ++ [n]).map (ServiceCall.deleteRecord d)) := by
  induction pre generalizing preInts with
  | nil =>
    have h : preInts = [] := by
      cases preInts with
      | nil => rfl
      | cons a t => simp at hp
    subst h
    simp [recordDeleteLoop, hi, hf]
  | cons a pre' ih =>
    cases preInts with
    | nil => simp at hp
    | cons m preInts' =>
      simp only [List.map_cons, List.cons.injEq] at hp
      obtain ⟨h1, h2⟩ := hp
      have hd : ds.deleteRecord d m = Except.ok () := hok m (List.mem_cons_self _ _)
      have hok' : ∀ k ∈ preInts', ds.deleteRecord d k = Except.ok () :=
        fun k hk => hok k (List.mem_cons_of_mem _ hk)
      simp [recordDeleteLoop, h1, hd, ih preInts' h2 hok']

/-- The delete loop when a prefix of ids parses and deletes successfully and
the next id fails to parse: it returns the "invalid record id" error naming
that id, the trace is exactly the prefix's calls, and neither the malformed
id nor any later id gets a DeleteRecord call. -/
theorem recordDeleteLoop_badParse (ds : DomainsService) (d : String)
    (pre : List String) (preInts : List Int)
    (i : String) (post : List String)
    (hp : pre.map strconvAtoi = preInts.map some)
    (hok : ∀ m ∈ preInts, ds.deleteRecord d m = Except.ok ())
    (hi : strconvAtoi i = none) :
    recordDeleteLoop ds d (pre ++ i :: post) =
      (Except.error (.msg ("invalid record id " ++ goQuote i)),
       preInts.map (ServiceCall.deleteRecord d)) := by
  induction pre generalizing preInts with
  | nil =>
    have h : preInts = [] := by
      cases preInts with
      | nil => rfl
      | cons a t => simp at hp
    subst h
    simp [recordDeleteLoop, hi]
  | cons a pre' ih =>
    cases preInts with
    | nil => simp at hp
    | cons m preInts' =>
      simp only [List.map_cons, List.cons.injEq] at hp
      obtain ⟨h1, h2⟩ := hp
      have hd : ds.deleteRecord d m = Except.ok () := hok m (List.mem_cons_self _ _)
      have hok' : ∀ k ∈ preInts', ds.deleteRecord d k = Except.ok () :=
        fun k hk => hok k (List.mem_cons_of_mem _ hk)
      simp [recordDeleteLoop, h1, hd, ih preInts' h2 hok']

/-- RunRecordDelete on a nonempty id list reduces to the delete loop: the
error channel is the loop's (success displays nothing) and the trace is the
loop's trace. -/
theorem RunRecordDelete_eq_loop (c : CmdConfig) (d : String) (ids : List String)
    (hargs : c.Args = d :: ids) (hne : ids ≠ []) :
    RunRecordDelete c =
      ((recordDeleteLoop c.Domains d ids).1.map (fun _ => (none : Option Displayed)),
       (recordDeleteLoop c.Domains d ids).2) := by
  rcases ids with _ | ⟨i, rest⟩
  · exact absurd rfl hne
  · have hlen : ¬ c.Args.length < 2 := by rw [hargs]; simp
    have hlen1 : ¬ (i :: rest).length < 1 := by simp
    simp only [RunRecordDelete, hargs, if_neg hlen]
    cases hr : (recordDeleteLoop c.Domains d (i :: rest)).1 with
    | error e => simp [hr, Except.map]
    | ok u => simp [hr, Except.map]

/-- Claim C1: every command handler invoked with fewer positional arguments
than it requires (one for the single-argument handlers, two for
RunRecordDelete) returns the MissingArguments error and performs no
remote-service call. -/
theorem claim_C1 (c : CmdConfig) :
    (c.Args.length < 1 →
      RunDomainCreate c = (Except.error (.missingArgs c.NS), []) ∧
      RunDomainGet c = (Except.error (.missingArgs c.NS), []) ∧
      RunDomainDelete c = (Except.error (.missingArgs c.NS), []) ∧
      RunRecordList c = (Except.error (.missingArgs c.NS), []) ∧
      RunRecordCreate c = (Except.error (.missingArgs c.NS), []) ∧
      RunRecordUpdate c = (Except.error (.missingArgs c.NS), [])) ∧
    (c.Args.length < 2 →
      RunRecordDelete c = (Except.error (.missingArgs c.NS), [])) := by
  constructor
  · intro h
    have h0 : c.Args = [] := List.length_eq_zero.mp (Nat.lt_one_iff.mp h)
    refine ⟨?_, ?_, ?_, ?_, ?_, ?_⟩ <;>
      simp [RunDomainCreate, RunDomainGet, RunDomainDelete, RunRecordList,
            RunRecordCreate, RunRecordUpdate, h0]
  · intro h
    unfold RunRecordDelete
    rw [if_pos h]

/-- Witness for claim C1 at the empty argument list. -/
theorem claim_C1_witness :
    ([] : List String).length < 1 ∧
    RunDomainCreate ⟨"ns", [], doitOk, svcOk⟩ = (Except.error (.missingArgs "ns"), []) ∧
    RunRecordDelete ⟨"ns", [], doitOk, svcOk⟩ = (Except.error (.missingArgs "ns"), []) := by
  refine ⟨by decide, ?_, ?_⟩
  · exact ((claim_C1 ⟨"ns", [], doitOk, svcOk⟩).1 (by decide)).1
  · exact (claim_C1 ⟨"ns", [], doitOk, svcOk⟩).2 (by decide)

/-- Claim C9: the six single-argument handlers test for an argument count
different from one, so more than one positional argument also yields the
MissingArguments error and no remote call. -/
theorem claim_C9 (c : CmdConfig) (h : 1 < c.Args.length) :
    RunDomainCreate c = (Except.error (.missingArgs c.NS), []) ∧
    RunDomainGet c = (Except.error (.missingArgs c.NS), []) ∧
    RunDomainDelete c = (Except.error (.missingArgs c.NS), []) ∧
    RunRecordList c = (Except.error (.missingArgs c.NS), []) ∧
    RunRecordCreate c = (Except.error (.missingArgs c.NS), []) ∧
    RunRecordUpdate c = (Except.error (.missingArgs c.NS), []) := by
  rcases hl : c.Args with _ | ⟨a, rest⟩
  · rw [hl] at h; simp at h
  · rcases rest with _ | ⟨b, t⟩
    · rw [hl] at h; simp at h
    · refine ⟨?_, ?_, ?_, ?_, ?_, ?_⟩ <;>
        simp [RunDomainCreate, RunDomainGet, RunDomainDelete, RunRecordList,
              RunRecordCreate, RunRecordUpdate, hl]

/-- Witness for claim C9 at a two-argument invocation. -/
theorem claim_C9_witness :
    1 < (["a", "b"] : List String).length ∧
    RunDomainCreate ⟨"ns", ["a", "b"], doitOk, svcOk⟩ =
      (Except.error (.missingArgs "ns"), []) :=
  ⟨by decide, (claim_C9 ⟨"ns", ["a", "b"], doitOk, svcOk⟩ (by decide)).1⟩

/-- Claim C4: when the (mocked) List operation returns a list of domains,
RunDomainList hands exactly that list, unchanged and in order, to the
Displayer and returns no error. -/
theorem claim_C4 (c : CmdConfig) (domains : List Domain)
    (h : c.Domains.list = Except.ok domains) :
    RunDomainList c = (Except.ok (some (Displayed.domains domains)), [ServiceCall.list]) := by
  simp [RunDomainList, h]

/-- Witness for claim C4 with a two-domain canned List response. -/
theorem claim_C4_witness :
    (DomainsService.mk (fun req => .ok ⟨req.Name, req.IPAddress⟩)
        (.ok [⟨"a.com", "1.1.1.1"⟩, ⟨"b.com", "2.2.2.2"⟩])
        (fun nm => .ok ⟨nm, "127.0.0.1"⟩) (fun _ => .ok ())
        (fun _ => .ok []) (fun _ r => .ok ⟨7, r.Type', r.Name, r.Data, r.Priority, r.Port, r.Weight⟩)
        (fun _ i r => .ok ⟨i, r.Type', r.Name, r.Data, r.Priority, r.Port, r.Weight⟩)
        (fun _ _ => .ok ())).list =
      Except.ok [⟨"a.com", "1.1.1.1"⟩, ⟨"b.com", "2.2.2.2"⟩] ∧
    RunDomainList ⟨"ns", [],  doitOk,
      DomainsService.mk (fun req => .ok ⟨req.Name, req.IPAddress⟩)
        (.ok [⟨"a.com", "1.1.1.1"⟩, ⟨"b.com", "2.2.2.2"⟩])
        (fun nm => .ok ⟨nm, "127.0.0.1"⟩) (fun _ => .ok ())
        (fun _ => .ok []) (fun _ r => .ok ⟨7, r.Type', r.Name, r.Data, r.Priority, r.Port, r.Weight⟩)
        (fun _ i r => .ok ⟨i, r.Type', r.Name, r.Data, r.Priority, r.Port, r.Weight⟩)
        (fun _ _ => .ok ())⟩ =
      (Except.ok (some (Displayed.domains [⟨"a.com", "1.1.1.1"⟩, ⟨"b.com", "2.2.2.2"⟩])),
       [ServiceCall.list]) :=
  ⟨rfl, claim_C4 _ _ rfl⟩

/-- Claim C3: RunRecordCreate with an empty record-type flag returns the
"record request is missing type" error and issues no CreateRecord call,
whatever the other flag values are. -/
theorem claim_C3 (c : CmdConfig) (name rName rData : String) (p po w : Int)
    (hargs : c.Args = [name])
    (ht : c.Doit.GetString c.NS ArgRecordType = Except.ok "")
    (hn : c.Doit.GetString c.NS ArgRecordName = Except.ok rName)
    (hd : c.Doit.GetString c.NS ArgRecordData = Except.ok rData)
    (hp : c.Doit.GetInt c.NS ArgRecordPriority = Except.ok p)
    (hpo : c.Doit.GetInt c.NS ArgRecordPort = Except.ok po)
    (hw : c.Doit.GetInt c.NS ArgRecordWeight = Except.ok w) :
    RunRecordCreate c = (Except.error (.msg "record request is missing type"), []) := by
  simp [RunRecordCreate, hargs, ht, hn, hd, hp, hpo, hw]

/-- Witness for claim C3 with all string flags empty. -/
theorem claim_C3_witness :
    doitEmptyStrings.GetString "ns" ArgRecordType = Except.ok "" ∧
    RunRecordCreate ⟨"ns", ["example.com"], doitEmptyStrings, svcOk⟩ =
      (Except.error (.msg "record request is missing type"), []) :=
  ⟨rfl, claim_C3 ⟨"ns", ["example.com"], doitEmptyStrings, svcOk⟩
    "example.com" "" "" 0 0 0 rfl rfl rfl rfl rfl rfl rfl⟩

/-- Claim C2: RunRecordDelete calls DeleteRecord on the given ids in order;
when every call succeeds it issues exactly one call per id, and when some
id's call fails it returns that error and never attempts a later id. -/
theorem claim_C2 (c : CmdConfig) (d : String) :
    (∀ (ids : List String) (ints : List Int),
      c.Args = d :: ids → ids ≠ [] →
      ids.map strconvAtoi = ints.map some →
      (∀ n ∈ ints, c.Domains.deleteRecord d n = Except.ok ()) →
      RunRecordDelete c = (Except.ok none, ints.map (ServiceCall.deleteRecord d))) ∧
    (∀ (pre : List String) (preInts : List Int) (i : String) (n : Int)
        (post : List String) (e : GoError),
      c.Args = d :: (pre ++ i :: post) →
      pre.map strconvAtoi = preInts.map some →
      (∀ m ∈ preInts, c.Domains.deleteRecord d m = Except.ok ()) →
      strconvAtoi i = some n →
      c.Domains.deleteRecord d n = Except.error e →
      RunRecordDelete c =
        (Except.error e, (preInts ++ [n]).map (ServiceCall.deleteRecord d))) := by
  constructor
  · intro ids ints hargs hne hp hok
    rw [RunRecordDelete_eq_loop c d ids hargs hne,
        recordDeleteLoop_all_ok c.Domains d ids ints hp hok]
    rfl
  · intro pre preInts i n post e hargs hp hok hi hf
    have hne : pre ++ i :: post ≠ [] := by simp
    rw [RunRecordDelete_eq_loop c d _ hargs hne,
        recordDeleteLoop_fail c.Domains d pre preInts i n post e hp hok hi hf]
    rfl

/-- Witness for claim C2: deleting ids 1, 2, 3 when id 2 fails stops after
the second call and surfaces the API error. -/
theorem claim_C2_witness :
    svcFailAt2.deleteRecord "d" 2 = Except.error (.api 500 "boom") ∧
    RunRecordDelete ⟨"ns", ["d", "1", "2", "3"], doitOk, svcFailAt2⟩ =
      (Except.error (.api 500 "boom"),
       [ServiceCall.deleteRecord "d" 1, ServiceCall.deleteRecord "d" 2]) := by
  constructor
  · decide
  · exact (claim_C2 ⟨"ns", ["d", "1", "2", "3"], doitOk, svcFailAt2⟩ "d").2
      ["1"] [1] "2" 2 ["3"] (.api 500 "boom") rfl (by decide) (by decide)
      (by decide) (by decide)

/-- Counterexample for claim C6 as stated: with two malformed ids "x" and
"y", the handler's error names only the first one, so for the malformed id
"y" it does not return an error naming that id. -/
theorem claim_C6_counterexample :
    strconvAtoi "y" = none ∧
    RunRecordDelete ⟨"ns", ["d", "x", "y"], doitOk, svcOk⟩ =
      (Except.error (.msg ("invalid record id " ++ goQuote "x")), []) ∧
    (RunRecordDelete ⟨"ns", ["d", "x", "y"], doitOk, svcOk⟩).1 ≠
      Except.error (.msg ("invalid record id " ++ goQuote "y")) := by
  refine ⟨by decide, by decide, by decide⟩

/-- Claim C6 (amended): when an id fails to parse as an integer and every
earlier id parses and deletes successfully, RunRecordDelete returns the
"invalid record id" error naming that id and the trace holds exactly the
earlier ids' DeleteRecord calls — none for the malformed id or any id after
it. -/
theorem claim_C6 (c : CmdConfig) (d : String) (pre : List String)
    (preInts : List Int) (i : String) (post : List String)
    (hargs : c.Args = d :: (pre ++ i :: post))
    (hp : pre.map strconvAtoi = preInts.map some)
    (hok : ∀ m ∈ preInts, c.Domains.deleteRecord d m = Except.ok ())
    (hi : strconvAtoi i = none) :
    RunRecordDelete c =
      (Except.error (.msg ("invalid record id " ++ goQuote i)),
       preInts.map (ServiceCall.deleteRecord d)) := by
  have hne : pre ++ i :: post ≠ [] := by simp
  rw [RunRecordDelete_eq_loop c d _ hargs hne,
      recordDeleteLoop_badParse c.Domains d pre preInts i post hp hok hi]
  rfl

/-- Witness for claim C6: ids 1, "x", 3 — id 1 is deleted, then the
malformed "x" stops the loop before any further call. -/
theorem claim_C6_witness :
    strconvAtoi "x" = none ∧
    RunRecordDelete ⟨"ns", ["d", "1", "x", "3"], doitOk, svcOk⟩ =
      (Except.error (.msg ("invalid record id " ++ goQuote "x")),
       [ServiceCall.deleteRecord "d" 1]) :=
  ⟨by decide, claim_C6 ⟨"ns", ["d", "1", "x", "3"], doitOk, svcOk⟩
    "d" ["1"] [1] "x" ["3"] rfl (by decide) (by decide) (by decide)⟩

/-- Claim C10: when RunRecordDelete fails partway, the DeleteRecord calls
already issued for the earlier ids stay in the trace (the partial remote
effect stands) and the trace contains only DeleteRecord calls — no
compensating or rollback operation of any kind. -/
theorem claim_C10 (c : CmdConfig) (d : String) (pre : List String)
    (preInts : List Int) (i : String) (n : Int) (post : List String) (e : GoError)
    (hargs : c.Args = d :: (pre ++ i :: post))
    (hp : pre.map strconvAtoi = preInts.map some)
    (hok : ∀ m ∈ preInts, c.Domains.deleteRecord d m = Except.ok ())
    (hi : strconvAtoi i = some n)
    (hf : c.Domains.deleteRecord d n = Except.error e) :
    (RunRecordDelete c).1 = Except.error e ∧
    (∀ m ∈ preInts, ServiceCall.deleteRecord d m ∈ (RunRecordDelete c).2) ∧
    (∀ call ∈ (RunRecordDelete c).2, ∃ k, call = ServiceCall.deleteRecord d k) := by
  have hne : pre ++ i :: post ≠ [] := by simp
  rw [RunRecordDelete_eq_loop c d _ hargs hne,
      recordDeleteLoop_fail c.Domains d pre preInts i n post e hp hok hi hf]
  refine ⟨rfl, ?_, ?_⟩
  · intro m hm
    exact List.mem_map.mpr ⟨m, List.mem_append_left _ hm, rfl⟩
  · intro call hcall
    obtain ⟨k, _, hk⟩ := List.mem_map.mp hcall
    exact ⟨k, hk.symm⟩

/-- Witness for claim C10: after the failure at id 2, the call for id 5 is
still in the trace. -/
theorem claim_C10_witness :
    svcFailAt2.deleteRecord "d" 2 = Except.error (.api 500 "boom") ∧
    ServiceCall.deleteRecord "d" 5 ∈
      (RunRecordDelete ⟨"ns", ["d", "5", "2", "9"], doitOk, svcFailAt2⟩).2 := by
  constructor
  · decide
  · exact (claim_C10 ⟨"ns", ["d", "5", "2", "9"], doitOk, svcFailAt2⟩ "d"
      ["5"] [5] "2" 2 ["9"] (.api 500 "boom") rfl (by decide) (by decide)
      (by decide) (by decide)).2.1 5 (by decide)

/-- Counterexample for claim C5 as stated: RunDomainCreate with the empty
domain name does not return an InvalidInput error and does perform a remote
call — it passes the empty name straight to Create. -/
theorem claim_C5_counterexample :
    RunDomainCreate ⟨"ns", [""], doitOk, svcOk⟩ =
      (Except.ok (some (Displayed.domains [⟨"", "v"⟩])),
       [ServiceCall.create ⟨"", "v"⟩]) ∧
    (RunDomainCreate ⟨"ns", [""], doitOk, svcOk⟩).2 ≠ [] := by
  refine ⟨by decide, by decide⟩

/-- Claim C5 (amended): domain get, domain delete and records list reject an
empty domain name with an InvalidInput error and perform no remote call;
domain create has no such check and invokes Create with the empty name. -/
theorem claim_C5 (c : CmdConfig) :
    (c.Args = [""] →
      RunDomainGet c = (Except.error (.msg "invalid domain name"), []) ∧
      RunDomainDelete c = (Except.error (.msg "invalid domain name"), []) ∧
      RunRecordList c = (Except.error (.msg "domain name is missing"), [])) ∧
    (∀ ip, c.Args = [""] → c.Doit.GetString c.NS "ip-address" = Except.ok ip →
      RunDomainCreate c =
        ((c.Domains.create ⟨"", ip⟩).map (fun d => some (Displayed.domains [d])),
         [ServiceCall.create ⟨"", ip⟩])) := by
  constructor
  · intro h
    refine ⟨?_, ?_, ?_⟩ <;> simp [RunDomainGet, RunDomainDelete, RunRecordList, h]
  · intro ip h hip
    simp only [RunDomainCreate, h, hip]
    cases hc : c.Domains.create ⟨"", ip⟩ <;> simp [hc, Except.map]

/-- Witness for claim C5 at the empty-name invocation. -/
theorem claim_C5_witness :
    RunDomainGet ⟨"ns", [""], doitOk, svcOk⟩ =
      (Except.error (.msg "invalid domain name"), []) ∧
    RunRecordList ⟨"ns", [""], doitOk, svcOk⟩ =
      (Except.error (.msg "domain name is missing"), []) := by
  have h := claim_C5 ⟨"ns", [""], doitOk, svcOk⟩
  exact ⟨(h.1 rfl).1, (h.1 rfl).2.2⟩

/-- Claim C7: whenever a remote-service operation reached by a handler
fails, the handler returns that exact error value unchanged, and the trace
shows the operation was invoked exactly once (no retry). -/
theorem claim_C7 :
    (∀ (c : CmdConfig) (name ip : String) (e : GoError),
      c.Args = [name] →
      c.Doit.GetString c.NS "ip-address" = Except.ok ip →
      c.Domains.create ⟨name, ip⟩ = Except.error e →
      RunDomainCreate c = (Except.error e, [ServiceCall.create ⟨name, ip⟩])) ∧
    (∀ (c : CmdConfig) (name : String) (e : GoError),
      c.Args = [name] → 1 ≤ name.length →
      c.Domains.get name = Except.error e →
      RunDomainGet c = (Except.error e, [ServiceCall.get name])) ∧
    (∀ (c : CmdConfig) (name : String) (e : GoError),
      c.Args = [name] → 1 ≤ name.length →
      c.Domains.delete name = Except.error e →
      RunDomainDelete c = (Except.error e, [ServiceCall.delete name])) ∧
    (∀ (c : CmdConfig) (name : String) (e : GoError),
      c.Args = [name] → 1 ≤ name.length →
      c.Domains.records name = Except.error e →
      RunRecordList c = (Except.error e, [ServiceCall.records name])) ∧
    (∀ (c : CmdConfig) (name t n d : String) (p po w : Int) (e : GoError),
      c.Args = [name] →
      c.Doit.GetString c.NS ArgRecordType = Except.ok t →
      c.Doit.GetString c.NS ArgRecordName = Except.ok n →
      c.Doit.GetString c.NS ArgRecordData = Except.ok d →
      c.Doit.GetInt c.NS ArgRecordPriority = Except.ok p →
      c.Doit.GetInt c.NS ArgRecordPort = Except.ok po →
      c.Doit.GetInt c.NS ArgRecordWeight = Except.ok w →
      t.length ≠ 0 →
      c.Domains.createRecord name ⟨t, n, d, p, po, w⟩ = Except.error e →
      RunRecordCreate c =
        (Except.error e, [ServiceCall.createRecord name ⟨t, n, d, p, po, w⟩])) ∧
    (∀ (c : CmdConfig) (name t n d : String) (rid p po w : Int) (e : GoError),
      c.Args = [name] →
      c.Doit.GetInt c.NS ArgRecordID = Except.ok rid →
      c.Doit.GetString c.NS ArgRecordType = Except.ok t →
      c.Doit.GetString c.NS ArgRecordName = Except.ok n →
      c.Doit.GetString c.NS ArgRecordData = Except.ok d →
      c.Doit.GetInt c.NS ArgRecordPriority = Except.ok p →
      c.Doit.GetInt c.NS ArgRecordPort = Except.ok po →
      c.Doit.GetInt c.NS ArgRecordWeight = Except.ok w →
      c.Domains.editRecord name rid ⟨t, n, d, p, po, w⟩ = Except.error e →
      RunRecordUpdate c =
        (Except.error e, [ServiceCall.editRecord name rid ⟨t, n, d, p, po, w⟩])) ∧
    (∀ (c : CmdConfig) (name i : String) (idn : Int) (e : GoError),
      c.Args = [name, i] →
      strconvAtoi i = some idn →
      c.Domains.deleteRecord name idn = Except.error e →
      RunRecordDelete c = (Except.error e, [ServiceCall.deleteRecord name idn])) := by
  refine ⟨?_, ?_, ?_, ?_, ?_, ?_, ?_⟩
  · intro c name ip e hargs hip hf
    simp [RunDomainCreate, hargs, hip, hf]
  · intro c name e hargs hlen hf
    simp [RunDomainGet, hargs, hf, Nat.not_lt.mpr hlen]
  · intro c name e hargs hlen hf
    simp [RunDomainDelete, hargs, hf, Nat.not_lt.mpr hlen]
  · intro c name e hargs hlen hf
    simp [RunRecordList, hargs, hf, Nat.not_lt.mpr hlen]
  · intro c name t n d p po w e hargs h1 h2 h3 h4 h5 h6 htne hf
    simp [RunRecordCreate, hargs, h1, h2, h3, h4, h5, h6, htne, hf]
  · intro c name t n d rid p po w e hargs h0 h1 h2 h3 h4 h5 h6 hf
    simp [RunRecordUpdate, hargs, h0, h1, h2, h3, h4, h5, h6, hf]
  · intro c name i idn e hargs hi hf
    rw [RunRecordDelete_eq_loop c name [i] hargs (by simp)]
    have hl := recordDeleteLoop_fail c.Domains name [] [] i idn [] e rfl
      (by simp) hi hf
    simp only [List.nil_append] at hl
    rw [hl]
    rfl

/-- Witness for claim C7: every handler run against a service whose
operations all fail with the same API error surfaces exactly that error
after exactly one call. -/
theorem claim_C7_witness :
    RunDomainCreate ⟨"ns", ["a.com"], doitOk, svcFail (.api 503 "down")⟩ =
      (Except.error (.api 503 "down"), [ServiceCall.create ⟨"a.com", "v"⟩]) ∧
    RunDomainGet ⟨"ns", ["a.com"], doitOk, svcFail (.api 503 "down")⟩ =
      (Except.error (.api 503 "down"), [ServiceCall.get "a.com"]) ∧
    RunDomainDelete ⟨"ns", ["a.com"], doitOk, svcFail (.api 503 "down")⟩ =
      (Except.error (.api 503 "down"), [ServiceCall.delete "a.com"]) ∧
    RunRecordList ⟨"ns", ["a.com"], doitOk, svcFail (.api 503 "down")⟩ =
      (Except.error (.api 503 "down"), [ServiceCall.records "a.com"]) ∧
    RunRecordCreate ⟨"ns", ["a.com"], doitOk, svcFail (.api 503 "down")⟩ =
      (Except.error (.api 503 "down"),
       [ServiceCall.createRecord "a.com" ⟨"v", "v", "v", 0, 0, 0⟩]) ∧
    RunRecordUpdate ⟨"ns", ["a.com"], doitOk, svcFail (.api 503 "down")⟩ =
      (Except.error (.api 503 "down"),
       [ServiceCall.editRecord "a.com" 0 ⟨"v", "v", "v", 0, 0, 0⟩]) ∧
    RunRecordDelete ⟨"ns", ["a.com", "3"], doitOk, svcFail (.api 503 "down")⟩ =
      (Except.error (.api 503 "down"), [ServiceCall.deleteRecord "a.com" 3]) := by
  refine ⟨?_, ?_, ?_, ?_, ?_, ?_, ?_⟩
  · exact claim_C7.1 _ "a.com" "v" _ rfl rfl rfl
  · exact claim_C7.2.1 _ "a.com" _ rfl (by decide) rfl
  · exact claim_C7.2.2.1 _ "a.com" _ rfl (by decide) rfl
  · exact claim_C7.2.2.2.1 _ "a.com" _ rfl (by decide) rfl
  · exact claim_C7.2.2.2.2.1 _ "a.com" "v" "v" "v" 0 0 0 _ rfl rfl rfl rfl
      rfl rfl rfl (by decide) rfl
  · exact claim_C7.2.2.2.2.2.1 _ "a.com" "v" "v" "v" 0 0 0 0 _ rfl rfl rfl
      rfl rfl rfl rfl rfl rfl
  · exact claim_C7.2.2.2.2.2.2 _ "a.com" "3" 3 _ rfl (by decide) rfl

/-- Claim C8: RunRecordCreate against the stateful mock displays a record
whose type, name, data, priority, port and weight equal the supplied flag
values, and looking the record up in the post-creation mock state by the
identical identifiers returns that same record. -/
theorem claim_C8 (st : MockState) (c : CmdConfig) (dom t n d : String)
    (p po w : Int)
    (hargs : c.Args = [dom])
    (hsvc : c.Domains = mockService st)
    (ht : c.Doit.GetString c.NS ArgRecordType = Except.ok t)
    (hn : c.Doit.GetString c.NS ArgRecordName = Except.ok n)
    (hd : c.Doit.GetString c.NS ArgRecordData = Except.ok d)
    (hp : c.Doit.GetInt c.NS ArgRecordPriority = Except.ok p)
    (hpo : c.Doit.GetInt c.NS ArgRecordPort = Except.ok po)
    (hw : c.Doit.GetInt c.NS ArgRecordWeight = Except.ok w)
    (htne : t.length ≠ 0) :
    RunRecordCreate c =
      (Except.ok (some (Displayed.records
         [(mockCreateRecord st dom ⟨t, n, d, p, po, w⟩).1])),
       [ServiceCall.createRecord dom ⟨t, n, d, p, po, w⟩]) ∧
    (mockCreateRecord st dom ⟨t, n, d, p, po, w⟩).1.Type' = t ∧
    (mockCreateRecord st dom ⟨t, n, d, p, po, w⟩).1.Name = n ∧
    (mockCreateRecord st dom ⟨t, n, d, p, po, w⟩).1.Data = d ∧
    (mockCreateRecord st dom ⟨t, n, d, p, po, w⟩).1.Priority = p ∧
    (mockCreateRecord st dom ⟨t, n, d, p, po, w⟩).1.Port = po ∧
    (mockCreateRecord st dom ⟨t, n, d, p, po, w⟩).1.Weight = w ∧
    mockGetRecord (mockCreateRecord st dom ⟨t, n, d, p, po, w⟩).2 dom
        (mockCreateRecord st dom ⟨t, n, d, p, po, w⟩).1.ID =
      some (mockCreateRecord st dom ⟨t, n, d, p, po, w⟩).1 := by
  refine ⟨?_, rfl, rfl, rfl, rfl, rfl, rfl, ?_⟩
  · simp [RunRecordCreate, hargs, ht, hn, hd, hp, hpo, hw, htne, hsvc,
          mockService, mockCreateRecord]
  · simp [mockGetRecord, mockCreateRecord, List.find?]

/-- Witness for claim C8 at a concrete empty mock state and concrete flag
values. -/
theorem claim_C8_witness :
    ("v" : String).length ≠ 0 ∧
    RunRecordCreate ⟨"ns", ["d.com"], doitOk, mockService ⟨1, []⟩⟩ =
      (Except.ok (some (Displayed.records [⟨1, "v", "v", "v", 0, 0, 0⟩])),
       [ServiceCall.createRecord "d.com" ⟨"v", "v", "v", 0, 0, 0⟩]) ∧
    mockGetRecord (mockCreateRecord ⟨1, []⟩ "d.com" ⟨"v", "v", "v", 0, 0, 0⟩).2
        "d.com" 1 =
      some ⟨1, "v", "v", "v", 0, 0, 0⟩ := by
  have h := claim_C8 ⟨1, []⟩ ⟨"ns", ["d.com"], doitOk, mockService ⟨1, []⟩⟩
    "d.com" "v" "v" "v" 0 0 0 rfl rfl rfl rfl rfl rfl rfl rfl (by decide)
  exact ⟨by decide, h.1, h.2.2.2.2.2.2.2⟩
